import Mathlib

/-
Verification of the referral-ledger backend (bot.py).

The four Flask handlers that touch the ledger are embedded as pure Lean
functions over an explicit `Ledger` state.  Python strings are modelled as
`List Char`; `str.lower()` becomes a character map, `str.startswith(p)`
becomes a comparison of the first `len(p)` characters, and `len` becomes
`List.length`.  Each handler returns `Except ApiError Ledger`: `Except.ok`
carries the ledger as it is passed to `save_data`, `Except.error` is one of
the error JSON responses, which the handlers emit before any mutation.
Read-only routes (`referral_status`, `payout_list`) are functions out of the
ledger that return no new state, mirroring the fact that those handlers never
call `save_data`.
-/

set_option maxRecDepth 40000

namespace ReferralSystem

/-- Python strings, modelled as lists of characters. -/
abbrev Str := List Char

/-- Model of Python `str.lower()` (every string the handlers lowercase is ASCII). -/
def lower (s : Str) : Str := s.map Char.toLower

/-- Model of Python `s.startswith(p)`: the first `len(p)` characters of `s` equal `p`. -/
def startswith (s p : Str) : Bool := s.take p.length == p

/-- One referral record as stored in `referrals.json`: referrer wallet, referee
wallet (empty when not yet attached), and the paid flag. -/
structure ReferralRecord where
  referrer : Str
  referee  : Str
  paid     : Bool
deriving Repr, DecidableEq

/-- The persisted ledger: `referrals` is the active collection, `paid_referrals`
the archive of settled records. -/
structure Ledger where
  referrals : List ReferralRecord
  paid_referrals : List ReferralRecord
deriving Repr, DecidableEq

/-- The ledger `load_data` creates when the data file does not exist yet. -/
def initLedger : Ledger := { referrals := [], paid_referrals := [] }

/-- Embedding of `is_valid_address`: `addr.startswith("0x") and len(addr) == 42`. -/
def is_valid_address (addr : Str) : Bool :=
  startswith addr "0x".toList && (addr.length == 42)

/-- The static secret the mark-paid route compares the `X-Secret-Key` header against. -/
def SECRET_KEY : Str := "SUA_CHAVE_SECRETA_PARA_MARCAR_COMO_PAGO".toList

/-- The static faucet token the use-referral route requires. -/
def FAUCET_TOKEN : Str := "VALID_FAUCET_USAGE".toList

/-- The distinct error responses the handlers can return. -/
inductive ApiError where
  | InvalidAddress
  | Unauthorized
  | DuplicateReferee
  | CapExceeded
deriving Repr, DecidableEq

/-- Embedding of the `register_referral` handler: lowercase the address, reject
an invalid address, and append a `{referrer, referee: "", paid: false}` record
unless some record with this referrer (any referee) already exists. -/
def register_referral (addr : Str) (db : Ledger) : Except ApiError Ledger :=
  let address := lower addr
  if !is_valid_address address then
    Except.error ApiError.InvalidAddress
  else
    match db.referrals.find? (fun item => item.referrer == address) with
    | some _ => Except.ok db
    | none =>
        Except.ok { db with referrals :=
          db.referrals ++ [{ referrer := address, referee := [], paid := false }] }

/-- Embedding of the `use_referral` handler: lowercase both addresses, then in
order check address format, faucet token, duplicate referee among the active
records, and the 200-record cap on the referrer, then append the new record. -/
def use_referral (referrer0 referee0 faucet_token : Str) (db : Ledger) :
    Except ApiError Ledger :=
  let referrer := lower referrer0
  let referee := lower referee0
  if !(is_valid_address referrer && is_valid_address referee) then
    Except.error ApiError.InvalidAddress
  else if faucet_token != FAUCET_TOKEN then
    Except.error ApiError.Unauthorized
  else if (db.referrals.find? (fun item => item.referee == referee)).isSome then
    Except.error ApiError.DuplicateReferee
  else if 200 ≤ db.referrals.countP (fun item => item.referrer == referrer) then
    Except.error ApiError.CapExceeded
  else
    Except.ok { db with referrals :=
      db.referrals ++ [{ referrer := referrer, referee := referee, paid := false }] }

/-- Embedding of the `mark_paid` handler: after the secret check, set
`paid = True` on every active record, assign that list to `paid_referrals`
(replacing its previous contents), and reset `referrals` to the empty list. -/
def mark_paid (secret_key : Str) (db : Ledger) : Except ApiError Ledger :=
  if secret_key != SECRET_KEY then
    Except.error ApiError.Unauthorized
  else
    Except.ok { referrals := [],
                paid_referrals := db.referrals.map (fun r => { r with paid := true }) }

/-- The JSON body of the referral-status route. -/
structure StatusResult where
  total_referrals : Nat
  paid : Nat
  unpaid : Nat
  referrals : List ReferralRecord
deriving Repr, DecidableEq

/-- Embedding of the `referral_status` handler: filter the active records whose
referrer equals the lowercased address and report counts over that list. -/
def referral_status (addr : Str) (db : Ledger) : StatusResult :=
  let address := lower addr
  let referrals := db.referrals.filter (fun r => r.referrer == address)
  let total := referrals.length
  let paidCount := referrals.countP (fun r => r.paid)
  { total_referrals := total
    paid := paidCount
    unpaid := total - paidCount
    referrals := referrals }

/-- One entry of the multisend list produced by the payout route. -/
structure PayoutEntry where
  wallet : Str
  amount : Nat
deriving Repr, DecidableEq

/-- The JSON body of the payout-list route. -/
structure PayoutResult where
  total_people : Nat
  total_ommv_to_send : Nat
  multisend_list : List PayoutEntry
deriving Repr, DecidableEq

/-- Embedding of the `payout_list` handler: for every unpaid active record emit
a referrer entry and a referee entry of 5 units each. -/
def payout_list (db : Ledger) : PayoutResult :=
  let unpaid := db.referrals.filter (fun r => !r.paid)
  let multisend_list :=
    unpaid.flatMap (fun ref =>
      [{ wallet := ref.referrer, amount := 5 }, { wallet := ref.referee, amount := 5 }])
  { total_people := multisend_list.length
    total_ommv_to_send := (multisend_list.map (fun item => item.amount)).sum
    multisend_list := multisend_list }

/-- The mutating requests a client can issue against the ledger. -/
inductive Op where
  | register (addr : Str)
  | use (referrer referee faucet_token : Str)
  | markPaid (secret : Str)
deriving Repr, DecidableEq

/-- Checks whether an operation is the settlement request. -/
def Op.isMarkPaid : Op → Bool
  | Op.markPaid _ => true
  | _ => false

/-- Applies one request to the ledger; a request that answers with an error
leaves the persisted ledger unchanged. -/
def applyOp (op : Op) (db : Ledger) : Ledger :=
  match op with
  | Op.register a => ((register_referral a db).toOption).getD db
  | Op.use r e t => ((use_referral r e t db).toOption).getD db
  | Op.markPaid s => ((mark_paid s db).toOption).getD db

/-- Runs a sequence of requests from left to right. -/
def runOps (ops : List Op) (db : Ledger) : Ledger :=
  match ops with
  | [] => db
  | op :: rest => runOps rest (applyOp op db)

/-- Ledger states the server can actually be in: everything reachable from the
empty ledger by a sequence of requests. -/
def Reachable (db : Ledger) : Prop := ∃ ops : List Op, runOps ops initLedger = db

/-- Number of active records whose referrer is `r` (the quantity the cap check
of `use_referral` computes). -/
def countReferrer (db : Ledger) (r : Str) : Nat :=
  db.referrals.countP (fun item => item.referrer == r)

/-- Whether some active record has referee `e` (the duplicate-referee test). -/
def hasReferee (db : Ledger) (e : Str) : Bool :=
  db.referrals.any (fun item => item.referee == e)

/-- Invariant: no referrer owns more than 200 active records. -/
def CapInv (db : Ledger) : Prop := ∀ r : Str, countReferrer db r ≤ 200

/-- Invariant: every active record is unpaid. -/
def AllUnpaid (db : Ledger) : Prop := ∀ rec ∈ db.referrals, rec.paid = false

/-! ### Characterizations of the handlers -/

theorem find?_referee_isSome (db : Ledger) (e : Str) :
    (db.referrals.find? (fun item => item.referee == e)).isSome = hasReferee db e := by
  rw [Bool.eq_iff_iff]
  simp [hasReferee, List.find?_isSome, List.any_eq_true]

theorem use_referral_invalid (r0 e0 t : Str) (db : Ledger)
    (h : (is_valid_address (lower r0) && is_valid_address (lower e0)) = false) :
    use_referral r0 e0 t db = Except.error ApiError.InvalidAddress := by
  simp [use_referral, h]

theorem use_referral_unauthorized (r0 e0 t : Str) (db : Ledger)
    (hv : (is_valid_address (lower r0) && is_valid_address (lower e0)) = true)
    (ht : t ≠ FAUCET_TOKEN) :
    use_referral r0 e0 t db = Except.error ApiError.Unauthorized := by
  simp [use_referral, hv, ht]

theorem use_referral_duplicate (r0 e0 t : Str) (db : Ledger)
    (hv : (is_valid_address (lower r0) && is_valid_address (lower e0)) = true)
    (ht : t = FAUCET_TOKEN)
    (hd : hasReferee db (lower e0) = true) :
    use_referral r0 e0 t db = Except.error ApiError.DuplicateReferee := by
  simp [use_referral, hv, ht, find?_referee_isSome, hd]

theorem use_referral_capExceeded (r0 e0 t : Str) (db : Ledger)
    (hv : (is_valid_address (lower r0) && is_valid_address (lower e0)) = true)
    (ht : t = FAUCET_TOKEN)
    (hd : hasReferee db (lower e0) = false)
    (hc : 200 ≤ countReferrer db (lower r0)) :
    use_referral r0 e0 t db = Except.error ApiError.CapExceeded := by
  simp [use_referral, hv, ht, find?_referee_isSome, hd, countReferrer] at hc ⊢
  exact hc

theorem use_referral_success (r0 e0 t : Str) (db : Ledger)
    (hv : (is_valid_address (lower r0) && is_valid_address (lower e0)) = true)
    (ht : t = FAUCET_TOKEN)
    (hd : hasReferee db (lower e0) = false)
    (hc : countReferrer db (lower r0) < 200) :
    use_referral r0 e0 t db = Except.ok { db with referrals :=
      db.referrals ++ [{ referrer := lower r0, referee := lower e0, paid := false }] } := by
  simp only [countReferrer] at hc
  simp [use_referral, hv, ht, find?_referee_isSome, hd, Nat.not_le.mpr hc]

theorem use_referral_ok_elim (r0 e0 t : Str) (db db1 : Ledger)
    (h : use_referral r0 e0 t db = Except.ok db1) :
    is_valid_address (lower r0) = true ∧ is_valid_address (lower e0) = true ∧
    t = FAUCET_TOKEN ∧ hasReferee db (lower e0) = false ∧
    countReferrer db (lower r0) < 200 ∧
    db1 = { db with referrals := db.referrals ++
      [{ referrer := lower r0, referee := lower e0, paid := false }] } := by
  simp only [use_referral] at h
  split at h
  · exact absurd h (by simp)
  · split at h
    · exact absurd h (by simp)
    · split at h
      · exact absurd h (by simp)
      · split at h
        · exact absurd h (by simp)
        · rename_i h1 h2 h3 h4
          simp only [Bool.not_eq_true', Bool.not_eq_false] at h1
          simp only [bne_iff_ne, ne_eq, Decidable.not_not] at h2
          rw [find?_referee_isSome] at h3
          simp only [Bool.not_eq_true] at h3
          refine ⟨(Bool.and_eq_true _ _).mp h1 |>.1, (Bool.and_eq_true _ _).mp h1 |>.2,
            h2, h3, Nat.not_le.mp h4, ?_⟩
          exact (Except.ok.injEq _ _).mp h.symm

theorem use_referral_error_elim (r0 e0 t : Str) (db : Ledger) (err : ApiError)
    (h : use_referral r0 e0 t db = Except.error err) :
    applyOp (Op.use r0 e0 t) db = db := by
  simp [applyOp, h, Except.toOption]

theorem register_referral_invalid (addr : Str) (db : Ledger)
    (h : is_valid_address (lower addr) = false) :
    register_referral addr db = Except.error ApiError.InvalidAddress := by
  simp [register_referral, h]

theorem register_referral_existing (addr : Str) (db : Ledger)
    (hv : is_valid_address (lower addr) = true)
    (h : db.referrals.any (fun r => r.referrer == lower addr) = true) :
    register_referral addr db = Except.ok db := by
  simp only [List.any_eq_true] at h
  obtain ⟨x, hx, hpx⟩ := h
  have hfind : (db.referrals.find? (fun item => item.referrer == lower addr)).isSome := by
    simp [List.find?_isSome]
    exact ⟨x, hx, by simpa using hpx⟩
  obtain ⟨y, hy⟩ := Option.isSome_iff_exists.mp hfind
  simp [register_referral, hv, hy]

theorem register_referral_new (addr : Str) (db : Ledger)
    (hv : is_valid_address (lower addr) = true)
    (h : db.referrals.any (fun r => r.referrer == lower addr) = false) :
    register_referral addr db = Except.ok { db with referrals :=
      db.referrals ++ [{ referrer := lower addr, referee := [], paid := false }] } := by
  have hfind : db.referrals.find? (fun item => item.referrer == lower addr) = none := by
    simp only [List.any_eq_false] at h
    simp [List.find?_eq_none]
    exact fun x hx => by simpa using h x hx
  simp [register_referral, hv, hfind]

theorem register_referral_ok_elim (addr : Str) (db db1 : Ledger)
    (h : register_referral addr db = Except.ok db1) :
    db1 = db ∨
    (countReferrer db (lower addr) = 0 ∧
     db1 = { db with referrals := db.referrals ++
       [{ referrer := lower addr, referee := [], paid := false }] }) := by
  simp only [register_referral] at h
  split at h
  · exact absurd h (by simp)
  · split at h
    · exact Or.inl ((Except.ok.injEq _ _).mp h).symm
    · rename_i hfind
      refine Or.inr ⟨?_, (Except.ok.injEq _ _).mp h.symm⟩
      have := List.find?_eq_none.mp hfind
      simp only [countReferrer, List.countP_eq_zero]
      exact this

theorem register_referral_error_elim (addr : Str) (db : Ledger) (err : ApiError)
    (h : register_referral addr db = Except.error err) :
    applyOp (Op.register addr) db = db := by
  simp [applyOp, h, Except.toOption]

theorem mark_paid_ok (s : Str) (db : Ledger) (h : s = SECRET_KEY) :
    mark_paid s db = Except.ok { referrals := [],
                                 paid_referrals := db.referrals.map
                                   (fun r => { r with paid := true }) } := by
  simp [mark_paid, h]

theorem mark_paid_ok_elim (s : Str) (db db1 : Ledger)
    (h : mark_paid s db = Except.ok db1) :
    s = SECRET_KEY ∧
    db1 = { referrals := [],
            paid_referrals := db.referrals.map (fun r => { r with paid := true }) } := by
  simp only [mark_paid] at h
  split at h
  · exact absurd h (by simp)
  · rename_i hs
    simp only [bne_iff_ne, ne_eq, Decidable.not_not] at hs
    exact ⟨hs, (Except.ok.injEq _ _).mp h.symm⟩

theorem mark_paid_error_elim (s : Str) (db : Ledger) (err : ApiError)
    (h : mark_paid s db = Except.error err) :
    applyOp (Op.markPaid s) db = db := by
  simp [applyOp, h, Except.toOption]

/-! ### Invariant preservation along request sequences -/

theorem countReferrer_append (db : Ledger) (x : ReferralRecord) (r : Str) :
    countReferrer { db with referrals := db.referrals ++ [x] } r =
      countReferrer db r + (if x.referrer == r then 1 else 0) := by
  simp [countReferrer, List.countP_append, List.countP_cons]

theorem capInv_applyOp (op : Op) (db : Ledger) (h : CapInv db) :
    CapInv (applyOp op db) := by
  cases op with
  | register a =>
      cases hres : register_referral a db with
      | error e => rw [register_referral_error_elim a db e hres]; exact h
      | ok db1 =>
          have happ : applyOp (Op.register a) db = db1 := by
            simp [applyOp, hres, Except.toOption]
          rw [happ]
          rcases register_referral_ok_elim a db db1 hres with rfl | ⟨hcount, rfl⟩
          · exact h
          · intro r
            rw [countReferrer_append]
            by_cases hx : (lower a == r) = true
            · have : lower a = r := by simpa using hx
              simp only [hx, if_true]
              rw [← this, hcount]
              omega
            · simp only [hx, if_false]
              simpa using h r
  | use r0 e0 t =>
      cases hres : use_referral r0 e0 t db with
      | error e => rw [use_referral_error_elim r0 e0 t db e hres]; exact h
      | ok db1 =>
          have happ : applyOp (Op.use r0 e0 t) db = db1 := by
            simp [applyOp, hres, Except.toOption]
          rw [happ]
          obtain ⟨-, -, -, -, hc, rfl⟩ := use_referral_ok_elim r0 e0 t db db1 hres
          intro r
          rw [countReferrer_append]
          by_cases hx : (lower r0 == r) = true
          · have heq : lower r0 = r := by simpa using hx
            simp only [hx, if_true]
            rw [← heq]
            omega
          · simp only [hx, if_false]
            simpa using h r
  | markPaid s =>
      cases hres : mark_paid s db with
      | error e => rw [mark_paid_error_elim s db e hres]; exact h
      | ok db1 =>
          have happ : applyOp (Op.markPaid s) db = db1 := by
            simp [applyOp, hres, Except.toOption]
          rw [happ]
          obtain ⟨-, rfl⟩ := mark_paid_ok_elim s db db1 hres
          intro r
          simp [countReferrer]

theorem allUnpaid_applyOp (op : Op) (db : Ledger) (h : AllUnpaid db) :
    AllUnpaid (applyOp op db) := by
  cases op with
  | register a =>
      cases hres : register_referral a db with
      | error e => rw [register_referral_error_elim a db e hres]; exact h
      | ok db1 =>
          have happ : applyOp (Op.register a) db = db1 := by
            simp [applyOp, hres, Except.toOption]
          rw [happ]
          rcases register_referral_ok_elim a db db1 hres with rfl | ⟨-, rfl⟩
          · exact h
          · intro rec hrec
            rcases List.mem_append.mp hrec with hrec | hrec
            · exact h rec hrec
            · simp at hrec
              subst hrec
              rfl
  | use r0 e0 t =>
      cases hres : use_referral r0 e0 t db with
      | error e => rw [use_referral_error_elim r0 e0 t db e hres]; exact h
      | ok db1 =>
          have happ : applyOp (Op.use r0 e0 t) db = db1 := by
            simp [applyOp, hres, Except.toOption]
          rw [happ]
          obtain ⟨-, -, -, -, -, rfl⟩ := use_referral_ok_elim r0 e0 t db db1 hres
          intro rec hrec
          rcases List.mem_append.mp hrec with hrec | hrec
          · exact h rec hrec
          · simp at hrec
            subst hrec
            rfl
  | markPaid s =>
      cases hres : mark_paid s db with
      | error e => rw [mark_paid_error_elim s db e hres]; exact h
      | ok db1 =>
          have happ : applyOp (Op.markPaid s) db = db1 := by
            simp [applyOp, hres, Except.toOption]
          rw [happ]
          obtain ⟨-, rfl⟩ := mark_paid_ok_elim s db db1 hres
          intro rec hrec
          simp at hrec

theorem hasReferee_applyOp (op : Op) (db : Ledger) (e : Str)
    (hop : Op.isMarkPaid op = false) (h : hasReferee db e = true) :
    hasReferee (applyOp op db) e = true := by
  cases op with
  | register a =>
      cases hres : register_referral a db with
      | error err => rw [register_referral_error_elim a db err hres]; exact h
      | ok db1 =>
          have happ : applyOp (Op.register a) db = db1 := by
            simp [applyOp, hres, Except.toOption]
          rw [happ]
          rcases register_referral_ok_elim a db db1 hres with rfl | ⟨-, rfl⟩
          · exact h
          · simp only [hasReferee] at h ⊢
            simp [List.any_append, h]
  | use r0 e0 t =>
      cases hres : use_referral r0 e0 t db with
      | error err => rw [use_referral_error_elim r0 e0 t db err hres]; exact h
      | ok db1 =>
          have happ : applyOp (Op.use r0 e0 t) db = db1 := by
            simp [applyOp, hres, Except.toOption]
          rw [happ]
          obtain ⟨-, -, -, -, -, rfl⟩ := use_referral_ok_elim r0 e0 t db db1 hres
          simp only [hasReferee] at h ⊢
          simp [List.any_append, h]
  | markPaid s => simp [Op.isMarkPaid] at hop

theorem runOps_preserves {P : Ledger → Prop}
    (hP : ∀ op db, P db → P (applyOp op db)) :
    ∀ (ops : List Op) (db : Ledger), P db → P (runOps ops db) := by
  intro ops
  induction ops with
  | nil => intro db h; exact h
  | cons op rest ih => intro db h; exact ih _ (hP op db h)

theorem capInv_init : CapInv initLedger := by
  intro r
  simp [countReferrer, initLedger]

theorem allUnpaid_init : AllUnpaid initLedger := by
  intro rec hrec
  simp [initLedger] at hrec

theorem reachable_capInv (db : Ledger) (h : Reachable db) : CapInv db := by
  obtain ⟨ops, rfl⟩ := h
  exact runOps_preserves capInv_applyOp ops initLedger capInv_init

theorem reachable_allUnpaid (db : Ledger) (h : Reachable db) : AllUnpaid db := by
  obtain ⟨ops, rfl⟩ := h
  exact runOps_preserves allUnpaid_applyOp ops initLedger allUnpaid_init

theorem hasReferee_runOps (ops : List Op) (db : Ledger) (e : Str)
    (hops : ∀ op ∈ ops, Op.isMarkPaid op = false) (h : hasReferee db e = true) :
    hasReferee (runOps ops db) e = true := by
  induction ops generalizing db with
  | nil => exact h
  | cons op rest ih =>
      exact ih (applyOp op db)
        (fun o ho => hops o (List.mem_cons_of_mem _ ho))
        (hasReferee_applyOp op db e (hops op (List.mem_cons_self _ _)) h)

/-! ### Concrete data used by counterexamples and witnesses -/

/-- Sample lowercase wallet address (42 characters, 0x, then 40 times a). -/
def addrA : Str := "0xaaaaaaaaaaaaaaaaaaaaaaaaaaaaaaaaaaaaaaaa".toList

/-- Sample lowercase wallet address (42 characters, 0x, then 40 times b). -/
def addrB : Str := "0xbbbbbbbbbbbbbbbbbbbbbbbbbbbbbbbbbbbbbbbb".toList

/-- Sample lowercase wallet address (42 characters, 0x, then 40 times c). -/
def addrC : Str := "0xcccccccccccccccccccccccccccccccccccccccc".toList

/-- Sample lowercase wallet address (42 characters, 0x, then 40 times d). -/
def addrD : Str := "0xdddddddddddddddddddddddddddddddddddddddd".toList

/-- A settled record sitting in the archive. -/
def recArchived : ReferralRecord := { referrer := addrA, referee := addrB, paid := true }

/-- An unpaid active record. -/
def recActive : ReferralRecord := { referrer := addrC, referee := addrD, paid := false }

/-- Ledger holding one active record for referrer A with referee B. -/
def dbC4a : Ledger :=
  { referrals := [{ referrer := addrA, referee := addrB, paid := false }]
    paid_referrals := [] }

/-- The ledger dbC4a after settlement. -/
def dbC4b : Ledger :=
  { referrals := []
    paid_referrals := [{ referrer := addrA, referee := addrB, paid := true }] }

/-- Ledger holding only the registration record of referrer A. -/
def dbReg : Ledger :=
  { referrals := [{ referrer := addrA, referee := ([] : Str), paid := false }]
    paid_referrals := [] }

/-! ### Claim C1 -/

/-- C1 counterexample: with one previously archived record and one active
record, settlement succeeds but the resulting archive holds only the newly
settled record — the previously archived record has been removed, refuting
that the archive is append-only and that no archived record is ever removed
or overwritten. -/
theorem C1_counterexample :
    mark_paid SECRET_KEY { referrals := [recActive], paid_referrals := [recArchived] } =
      Except.ok { referrals := []
                  paid_referrals := [{ referrer := addrC, referee := addrD, paid := true }] } ∧
    recArchived ∉ [({ referrer := addrC, referee := addrD, paid := true } : ReferralRecord)] := by
  exact ⟨rfl, by decide⟩

/-- C1 (amended): settlement with the correct secret sets paid = true on every
record currently in active and installs that settled list as the entire new
archive — discarding whatever the archive previously held — and clears active;
every record of the new archive is paid. -/
theorem C1_settle_replaces_archive (db db1 : Ledger)
    (h : mark_paid SECRET_KEY db = Except.ok db1) :
    db1.referrals = [] ∧
    db1.paid_referrals = db.referrals.map (fun r => { r with paid := true }) ∧
    (∀ rec ∈ db1.paid_referrals, rec.paid = true) := by
  obtain ⟨-, rfl⟩ := mark_paid_ok_elim _ _ _ h
  refine ⟨rfl, rfl, ?_⟩
  intro rec hrec
  simp only [List.mem_map] at hrec
  obtain ⟨r, -, rfl⟩ := hrec
  rfl

/-- C1 witness: the amended settlement theorem evaluated on a concrete ledger
with one active record. -/
theorem C1_settle_replaces_archive_witness :
    dbC4b.referrals = [] ∧
    dbC4b.paid_referrals = dbC4a.referrals.map (fun r => { r with paid := true }) ∧
    (∀ rec ∈ dbC4b.paid_referrals, rec.paid = true) :=
  C1_settle_replaces_archive dbC4a dbC4b rfl

/-! ### Claim C2 -/

/-- C2 counterexample: settlement on a ledger whose active collection is empty
but whose archive is not empties the archive, so the call is not a no-op on
the ledger. -/
theorem C2_counterexample :
    mark_paid SECRET_KEY { referrals := [], paid_referrals := [recArchived] } =
      Except.ok { referrals := [], paid_referrals := [] } ∧
    ({ referrals := [], paid_referrals := [recArchived] } : Ledger) ≠
      { referrals := [], paid_referrals := [] } := by
  exact ⟨rfl, by decide⟩

/-- C2 (amended): invoking settlement when active is already empty succeeds and
leaves active empty, but it resets the archive to the empty list; the whole
ledger is left unchanged only when the archive is empty as well. -/
theorem C2_settle_empty_active (db : Ledger) (h : db.referrals = []) :
    mark_paid SECRET_KEY db = Except.ok { referrals := [], paid_referrals := [] } ∧
    (db.paid_referrals = [] → mark_paid SECRET_KEY db = Except.ok db) := by
  have hmk := mark_paid_ok SECRET_KEY db rfl
  rw [h] at hmk
  simp only [List.map_nil] at hmk
  refine ⟨hmk, ?_⟩
  intro h2
  rw [hmk]
  obtain ⟨ra, pa⟩ := db
  simp only at h h2
  subst h
  subst h2
  rfl

/-- C2 witness: the amended theorem evaluated on the empty ledger, where the
call is indeed a no-op. -/
theorem C2_settle_empty_active_witness :
    mark_paid SECRET_KEY initLedger = Except.ok initLedger :=
  (C2_settle_empty_active initLedger rfl).2 rfl

/-! ### Claim C3 -/

/-- C3 counterexample: after referee B attached to referrer A, the active
collection holds no record with referrer A and empty referee, yet registering
A appends nothing — the handler skips the append whenever any record with
this referrer exists, whatever its referee. -/
theorem C3_counterexample :
    dbC4a.referrals.countP
      (fun r => r.referrer == addrA && r.referee == ([] : Str)) = 0 ∧
    is_valid_address (lower addrA) = true ∧
    register_referral addrA dbC4a = Except.ok dbC4a := by
  exact ⟨by decide, by decide, rfl⟩

/-- C3 (amended): with a valid address, register appends the fresh record iff
no active record with this referrer — with any referee value, not only the
empty one — exists; the call is idempotent, and starting from a state with no
record for this referrer, after the call exactly one record with this referrer
and empty referee exists. -/
theorem C3_register_amended (addr : Str) (db db1 : Ledger)
    (hv : is_valid_address (lower addr) = true)
    (h : register_referral addr db = Except.ok db1) :
    (db1.referrals = db.referrals ++
        [{ referrer := lower addr, referee := ([] : Str), paid := false }] ↔
      db.referrals.any (fun r => r.referrer == lower addr) = false) ∧
    register_referral addr db1 = Except.ok db1 ∧
    (countReferrer db (lower addr) = 0 →
      db1.referrals.countP
        (fun r => r.referrer == lower addr && r.referee == ([] : Str)) = 1) := by
  by_cases hany : db.referrals.any (fun r => r.referrer == lower addr) = true
  · have hreg := register_referral_existing addr db hv hany
    rw [hreg] at h
    obtain rfl : db = db1 := (Except.ok.injEq _ _).mp h
    refine ⟨?_, hreg, ?_⟩
    · constructor
      · intro habs
        have := congrArg List.length habs
        simp at this
      · intro hfalse
        rw [hfalse] at hany
        exact absurd hany (by simp)
    · intro hzero
      exfalso
      obtain ⟨x, hx, hpx⟩ := List.any_eq_true.mp hany
      have := List.countP_eq_zero.mp hzero x hx
      exact this hpx
  · have hany' : db.referrals.any (fun r => r.referrer == lower addr) = false :=
      Bool.not_eq_true _ |>.mp hany
    have hreg := register_referral_new addr db hv hany'
    rw [hreg] at h
    obtain rfl : _ = db1 := (Except.ok.injEq _ _).mp h
    refine ⟨⟨fun _ => hany', fun _ => rfl⟩, ?_, ?_⟩
    · apply register_referral_existing addr _ hv
      simp [List.any_append]
    · intro hzero
      rw [List.countP_append]
      have h0 : db.referrals.countP
          (fun r => r.referrer == lower addr && r.referee == ([] : Str)) = 0 := by
        apply List.countP_eq_zero.mpr
        intro a ha
        have := List.any_eq_false.mp hany' a ha
        simp at this ⊢
        intro habs
        exact absurd habs this
      rw [h0]
      simp

/-- C3 witness: the amended theorem evaluated on the register call that creates
referrer A on the empty ledger. -/
theorem C3_register_amended_witness :
    (dbReg.referrals = initLedger.referrals ++
        [{ referrer := lower addrA, referee := ([] : Str), paid := false }] ↔
      initLedger.referrals.any (fun r => r.referrer == lower addrA) = false) ∧
    register_referral addrA dbReg = Except.ok dbReg ∧
    (countReferrer initLedger (lower addrA) = 0 →
      dbReg.referrals.countP
        (fun r => r.referrer == lower addrA && r.referee == ([] : Str)) = 1) :=
  C3_register_amended addrA initLedger dbReg (by decide) rfl

/-! ### Claim C4 -/

/-- C4 counterexample: attaching referee B to referrer A succeeds, settlement
runs, and then attaching the same referee B under referrer C succeeds instead
of failing with DuplicateReferee — the duplicate check scans only the active
collection, which settlement emptied. -/
theorem C4_counterexample :
    use_referral addrA addrB FAUCET_TOKEN initLedger = Except.ok dbC4a ∧
    mark_paid SECRET_KEY dbC4a = Except.ok dbC4b ∧
    use_referral addrC addrB FAUCET_TOKEN dbC4b =
      Except.ok { referrals := [{ referrer := addrC, referee := addrB, paid := false }]
                  paid_referrals := [{ referrer := addrA, referee := addrB, paid := true }] } := by
  exact ⟨rfl, rfl, rfl⟩

/-- C4 (amended): once attachReferee(R, E, token) has succeeded, a later
attachReferee(R2, E, token) with any valid R2 fails with DuplicateReferee as
long as no settlement ran in between; settlement empties the active
collection, the only one the duplicate check scans, after which E can be
attached again. -/
theorem C4_duplicate_until_settle (R E tok R2 : Str) (ops : List Op) (db db1 : Ledger)
    (hok : use_referral R E tok db = Except.ok db1)
    (hops : ∀ op ∈ ops, Op.isMarkPaid op = false)
    (hR2 : is_valid_address (lower R2) = true) :
    use_referral R2 E tok (runOps ops db1) = Except.error ApiError.DuplicateReferee := by
  obtain ⟨-, hEv, rfl, -, -, rfl⟩ := use_referral_ok_elim R E tok db db1 hok
  have hmem : hasReferee { db with referrals := db.referrals ++
      [{ referrer := lower R, referee := lower E, paid := false }] } (lower E) = true := by
    simp [hasReferee, List.any_append]
  have hpres := hasReferee_runOps ops _ (lower E) hops hmem
  exact use_referral_duplicate R2 E FAUCET_TOKEN _ (by simp [hR2, hEv]) rfl hpres

/-- C4 witness: the amended theorem evaluated on a concrete attach followed by
one register request (no settlement), where the second attach of the same
referee is rejected. -/
theorem C4_duplicate_until_settle_witness :
    use_referral addrC addrB FAUCET_TOKEN (runOps [Op.register addrD] dbC4a) =
      Except.error ApiError.DuplicateReferee :=
  C4_duplicate_until_settle addrA addrB FAUCET_TOKEN addrC [Op.register addrD]
    initLedger dbC4a rfl (by decide) (by decide)

/-! ### Claim C5 -/

/-- C5: attachReferee validates in the fixed order address format, token,
duplicate referee, cap, and the first failing check determines the error; in
particular a call with an invalid address and a wrong token fails with
InvalidAddress, and a call that returns an error leaves the ledger unchanged. -/
theorem C5_validation_order (r0 e0 t : Str) (db : Ledger) :
    ((is_valid_address (lower r0) && is_valid_address (lower e0)) = false →
      use_referral r0 e0 t db = Except.error ApiError.InvalidAddress) ∧
    ((is_valid_address (lower r0) && is_valid_address (lower e0)) = true →
      t ≠ FAUCET_TOKEN →
      use_referral r0 e0 t db = Except.error ApiError.Unauthorized) ∧
    ((is_valid_address (lower r0) && is_valid_address (lower e0)) = true →
      t = FAUCET_TOKEN → hasReferee db (lower e0) = true →
      use_referral r0 e0 t db = Except.error ApiError.DuplicateReferee) ∧
    ((is_valid_address (lower r0) && is_valid_address (lower e0)) = true →
      t = FAUCET_TOKEN → hasReferee db (lower e0) = false →
      200 ≤ countReferrer db (lower r0) →
      use_referral r0 e0 t db = Except.error ApiError.CapExceeded) ∧
    (∀ err : ApiError, use_referral r0 e0 t db = Except.error err →
      applyOp (Op.use r0 e0 t) db = db) :=
  ⟨use_referral_invalid r0 e0 t db,
   use_referral_unauthorized r0 e0 t db,
   use_referral_duplicate r0 e0 t db,
   use_referral_capExceeded r0 e0 t db,
   fun err h => use_referral_error_elim r0 e0 t db err h⟩

/-- C5 witness: a call with an invalid referrer address and a wrong token is
answered with InvalidAddress, not Unauthorized. -/
theorem C5_validation_order_witness :
    use_referral "abc".toList addrB "WRONG_TOKEN".toList initLedger =
      Except.error ApiError.InvalidAddress :=
  (C5_validation_order "abc".toList addrB "WRONG_TOKEN".toList initLedger).1 (by decide)

/-! ### Claim C6 -/

/-- C6: once a referrer holds at least 200 active records, an attach under this
referrer with the valid token and a fresh valid referee fails with CapExceeded;
each successful attach raises the referrer's active count by exactly one and
can only happen below the cap; and in every reachable ledger state no referrer
value is carried by more than 200 active records. -/
theorem C6_cap (r0 e0 t : Str) (db : Ledger) :
    (is_valid_address (lower r0) = true → is_valid_address (lower e0) = true →
      t = FAUCET_TOKEN → hasReferee db (lower e0) = false →
      200 ≤ countReferrer db (lower r0) →
      use_referral r0 e0 t db = Except.error ApiError.CapExceeded) ∧
    (∀ db1, use_referral r0 e0 t db = Except.ok db1 →
      countReferrer db1 (lower r0) = countReferrer db (lower r0) + 1 ∧
      countReferrer db (lower r0) < 200) ∧
    (Reachable db → ∀ r : Str, countReferrer db r ≤ 200) := by
  refine ⟨?_, ?_, ?_⟩
  · intro h1 h2 h3 h4 h5
    exact use_referral_capExceeded r0 e0 t db (by simp [h1, h2]) h3 h4 h5
  · intro db1 h
    obtain ⟨-, -, -, -, hc, rfl⟩ := use_referral_ok_elim r0 e0 t db db1 h
    refine ⟨?_, hc⟩
    rw [countReferrer_append]
    simp
  · intro h r
    exact reachable_capInv db h r

/-- A ledger in which referrer A already holds 200 active records. -/
def db200 : Ledger :=
  { referrals := List.replicate 200 { referrer := addrA, referee := addrB, paid := false }
    paid_referrals := [] }

/-- C6 witness: on the ledger with 200 records for referrer A, the next attach
with a fresh referee is answered with CapExceeded. -/
theorem C6_cap_witness :
    use_referral addrA addrD FAUCET_TOKEN db200 = Except.error ApiError.CapExceeded :=
  (C6_cap addrA addrD FAUCET_TOKEN db200).1 (by decide) (by decide) rfl
    (by decide) (by decide)

/-! ### Claim C7 -/

theorem payout_pairs_length (l : List ReferralRecord) :
    (l.flatMap (fun ref =>
      [({ wallet := ref.referrer, amount := 5 } : PayoutEntry),
       { wallet := ref.referee, amount := 5 }])).length = 2 * l.length := by
  induction l with
  | nil => rfl
  | cons x xs ih =>
      simp only [List.flatMap_cons, List.length_append, List.length_cons,
        List.length_nil, ih, List.length_cons]
      omega

theorem payout_pairs_sum (l : List ReferralRecord) :
    ((l.flatMap (fun ref =>
        [({ wallet := ref.referrer, amount := 5 } : PayoutEntry),
         { wallet := ref.referee, amount := 5 }])).map (fun item => item.amount)).sum =
      5 * (2 * l.length) := by
  induction l with
  | nil => rfl
  | cons x xs ih =>
      simp only [List.flatMap_cons, List.map_append, List.sum_append, ih,
        List.map_cons, List.map_nil, List.sum_cons, List.sum_nil, List.length_cons]
      omega

/-- C7: on every reachable ledger state (where every active record is unpaid)
the payout list holds, for each active record in order, one referrer entry and
one referee entry of 5 units each — also when the referee is empty, in which
case an empty-wallet entry appears — so total_people = 2 times the number of
active records and total_ommv_to_send = 5 times total_people. The handler is
embedded as a function of the ledger returning only the response, mirroring
that the source handler never writes the store. -/
theorem C7_payout (db : Ledger) (h : Reachable db) :
    (payout_list db).multisend_list =
      db.referrals.flatMap (fun ref =>
        [{ wallet := ref.referrer, amount := 5 }, { wallet := ref.referee, amount := 5 }]) ∧
    (payout_list db).total_people = 2 * db.referrals.length ∧
    (payout_list db).total_ommv_to_send = 5 * (payout_list db).total_people ∧
    (∀ ref ∈ db.referrals, ref.referee = ([] : Str) →
      ({ wallet := ([] : Str), amount := 5 } : PayoutEntry) ∈
        (payout_list db).multisend_list) := by
  have hup := reachable_allUnpaid db h
  have hfilter : db.referrals.filter (fun r => !r.paid) = db.referrals := by
    apply List.filter_eq_self.mpr
    intro a ha
    simp [hup a ha]
  have hlist : (payout_list db).multisend_list =
      db.referrals.flatMap (fun ref =>
        [{ wallet := ref.referrer, amount := 5 }, { wallet := ref.referee, amount := 5 }]) := by
    simp only [payout_list, hfilter]
  refine ⟨hlist, ?_, ?_, ?_⟩
  · show (payout_list db).multisend_list.length = _
    rw [hlist, payout_pairs_length]
  · show ((payout_list db).multisend_list.map (fun item => item.amount)).sum =
      5 * (payout_list db).multisend_list.length
    rw [hlist, payout_pairs_sum, payout_pairs_length]
  · intro ref href hempty
    rw [hlist]
    apply List.mem_flatMap.mpr
    exact ⟨ref, href, by simp [hempty]⟩

/-- C7 witness: the payout theorem evaluated on the reachable ledger holding
the single record (A, B). -/
theorem C7_payout_witness :
    (payout_list dbC4a).multisend_list =
      dbC4a.referrals.flatMap (fun ref =>
        [{ wallet := ref.referrer, amount := 5 }, { wallet := ref.referee, amount := 5 }]) ∧
    (payout_list dbC4a).total_people = 2 * dbC4a.referrals.length ∧
    (payout_list dbC4a).total_ommv_to_send = 5 * (payout_list dbC4a).total_people ∧
    (∀ ref ∈ dbC4a.referrals, ref.referee = ([] : Str) →
      ({ wallet := ([] : Str), amount := 5 } : PayoutEntry) ∈
        (payout_list dbC4a).multisend_list) :=
  C7_payout dbC4a ⟨[Op.use addrA addrB FAUCET_TOKEN], rfl⟩

/-! ### Claim C8 -/

/-- C8: referral_status filters only the active collection by lowercased
referrer and reports the count of matches as total together with the
paid/unpaid split and the matching records in stored (insertion) order; the
archive plays no role — replacing it with any list leaves the response
unchanged — and right after a settlement the status of every address reports
total 0. -/
theorem C8_status (addr : Str) (db : Ledger) :
    (referral_status addr db).referrals =
      db.referrals.filter (fun r => r.referrer == lower addr) ∧
    (referral_status addr db).total_referrals =
      (db.referrals.filter (fun r => r.referrer == lower addr)).length ∧
    (referral_status addr db).paid =
      (db.referrals.filter (fun r => r.referrer == lower addr)).countP (fun r => r.paid) ∧
    (referral_status addr db).unpaid =
      (referral_status addr db).total_referrals - (referral_status addr db).paid ∧
    (∀ arch : List ReferralRecord,
      referral_status addr { db with paid_referrals := arch } = referral_status addr db) ∧
    (∀ db1, mark_paid SECRET_KEY db = Except.ok db1 →
      (referral_status addr db1).total_referrals = 0) := by
  refine ⟨rfl, rfl, rfl, rfl, fun arch => rfl, ?_⟩
  intro db1 h
  obtain ⟨-, rfl⟩ := mark_paid_ok_elim _ _ _ h
  rfl

/-- C8 witness: after settling the ledger that held one record for referrer A,
the status of A reports total 0. -/
theorem C8_status_witness :
    (referral_status addrA dbC4b).total_referrals = 0 :=
  (C8_status addrA dbC4a).2.2.2.2.2 dbC4b rfl

/-! ### Claim C9 -/

/-- A 42-character string that is 0x followed by 40 characters that are not
hex digits. -/
def nonHexAddr : Str := "0xzzzzzzzzzzzzzzzzzzzzzzzzzzzzzzzzzzzzzzzz".toList

/-- Hexadecimal digit characters: 0-9, a-f, A-F. -/
def isHexChar (c : Char) : Bool :=
  c.isDigit || ('a' ≤ c && c ≤ 'f') || ('A' ≤ c && c ≤ 'F')

/-- C9: is_valid_address accepts a string iff its first two characters are 0
and x and its total length is 42; it checks nothing about the remaining 40
characters, witnessed by its accepting the 42-character string of z letters,
which are not hex digits. -/
theorem C9_is_valid_address (s : Str) :
    (is_valid_address s = true ↔ (s.take 2 = ['0', 'x'] ∧ s.length = 42)) ∧
    is_valid_address nonHexAddr = true ∧
    'z' ∈ nonHexAddr ∧ isHexChar 'z' = false := by
  have hx : "0x".toList = ['0', 'x'] := rfl
  refine ⟨?_, by decide, by decide, by decide⟩
  simp [is_valid_address, startswith, hx]

/-- C9 witness: the validator accepts the non-hex 42-character string. -/
theorem C9_is_valid_address_witness :
    is_valid_address nonHexAddr = true :=
  (C9_is_valid_address nonHexAddr).2.1

/-! ### Claim C10 -/

theorem countP_split (l : List ReferralRecord) (p q : ReferralRecord → Bool) :
    l.countP p =
      l.countP (fun a => p a && q a) + l.countP (fun a => p a && !q a) := by
  induction l with
  | nil => rfl
  | cons x xs ih =>
      by_cases hp : p x = true
      · cases hq : q x with
        | true => simp [List.countP_cons, hp, hq, ih]; omega
        | false => simp [List.countP_cons, hp, hq, ih]; omega
      · have hp' : p x = false := Bool.not_eq_true _ |>.mp hp
        simp [List.countP_cons, hp', ih]

/-- C10: the cap check counts every active record carrying the referrer,
including the empty-referee registration record, so with the registration
record present a referrer whose total active count reached 200 gets
CapExceeded on the next attach; consequently, in any reachable state that
still holds the registration record, at most 199 of the referrer's active
records carry a non-empty referee. -/
theorem C10_registration_counts (R E t : Str) (db : Ledger)
    (hreg : ({ referrer := lower R, referee := ([] : Str), paid := false } :
        ReferralRecord) ∈ db.referrals) :
    (is_valid_address (lower R) = true → is_valid_address (lower E) = true →
      t = FAUCET_TOKEN → hasReferee db (lower E) = false →
      200 ≤ countReferrer db (lower R) →
      use_referral R E t db = Except.error ApiError.CapExceeded) ∧
    (Reachable db →
      db.referrals.countP
        (fun r => r.referrer == lower R && !(r.referee == ([] : Str))) ≤ 199) := by
  constructor
  · intro h1 h2 h3 h4 h5
    exact use_referral_capExceeded R E t db (by simp [h1, h2]) h3 h4 h5
  · intro hr
    have hcap : countReferrer db (lower R) ≤ 200 := reachable_capInv db hr (lower R)
    have hsplit := countP_split db.referrals
      (fun r => r.referrer == lower R) (fun r => r.referee == ([] : Str))
    have hone : 1 ≤ db.referrals.countP
        (fun r => (r.referrer == lower R) && (r.referee == ([] : Str))) := by
      have : 0 < db.referrals.countP
          (fun r => (r.referrer == lower R) && (r.referee == ([] : Str))) :=
        List.countP_pos_iff.mpr ⟨_, hreg, by simp⟩
      omega
    simp only [countReferrer] at hcap
    omega

/-- C10 witness: in the reachable ledger holding only the registration record
of referrer A, at most 199 active records of A carry a non-empty referee. -/
theorem C10_registration_counts_witness :
    dbReg.referrals.countP
      (fun r => r.referrer == lower addrA && !(r.referee == ([] : Str))) ≤ 199 :=
  (C10_registration_counts addrA addrB FAUCET_TOKEN dbReg (by decide)).2
    ⟨[Op.register addrA], rfl⟩

end ReferralSystem
